import Mathlib

/-!
Shallow embedding of the client-side automation rule engine of
`src/pages/Automation.tsx` (IoT dashboard frontend).

Readings are modelled as already-flattened association lists from dotted-path
keys to JSON-ish values; the flattener, timestamp picker and numeric coercion
live in `@/lib/readings-utils`, which is not part of the provided sources, so
those leaves are modelled from the spec where noted.  Numbers are rationals
(the claims never exercise IEEE-754-specific behaviour), epoch timestamps are
integers (milliseconds).
-/

namespace IotFront

/-- A JSON leaf value as it appears in a flattened reading mapping. -/
inductive JsonVal where
  | num (q : ℚ)
  | str (s : String)
  | bool (b : Bool)
  | null
deriving DecidableEq, Repr

/-- The six comparison operators of an alert rule (`Operador` in the source). -/
inductive Operador where
  | gt | lt | ge | le | eq | ne
deriving DecidableEq, Repr

/-- Rendering of an operator as it appears in event text. -/
def opText : Operador → String
  | .gt => ">"
  | .lt => "<"
  | .ge => ">="
  | .le => "<="
  | .eq => "=="
  | .ne => "!="

/-- `AutomationType` from the source: a rule is an alert or a schedule. -/
inductive AutomationType where
  | alert | schedule
deriving DecidableEq, Repr

/-- `schedule` field of a rule: target local wall-clock hour/minute. -/
structure Sched where
  hh : Int
  mm : Int
deriving DecidableEq, Repr

/-- The `Automacao` record from the source.  Optional fields are `Option`;
`threshold` is a rational standing for a JS number (`NaN` is represented by
absence, which the validation path treats the same way). -/
structure Automacao where
  id : String
  name : String
  description : Option String
  enabled : Bool
  type : AutomationType
  espId : String
  metricKey : Option String
  operador : Option Operador
  threshold : Option ℚ
  schedule : Option Sched
  lastTriggered : Option Int
deriving DecidableEq, Repr

/-- The `Evento` record from the source, minus the `id` field, which is a
fresh `crypto.randomUUID()` (environment randomness, never observed by any
property). -/
structure Evento where
  ts : Int
  espId : String
  name : String
  text : String
deriving DecidableEq, Repr

/-- JS `String#trim`, modelled structurally (whitespace stripped from both
ends). -/
def jsTrim (s : String) : String :=
  String.mk (((s.toList.dropWhile Char.isWhitespace).reverse.dropWhile
    Char.isWhitespace).reverse)

/-- Modelled from the spec: `normalizeKey` of `@/lib/readings-utils` (not in
the provided sources) "case-folds and strips non-alphanumeric characters" for
fuzzy matching of metric names. -/
def normalizeKey (s : String) : String :=
  String.mk ((s.toList.map Char.toLower).filter Char.isAlphanum)

/-- Characters after the last dot of a character list (empty when the list
ends in a dot). -/
def lastSegAux : List Char → List Char → List Char
  | cur, [] => cur.reverse
  | cur, c :: cs => if c = '.' then lastSegAux [] cs else lastSegAux (c :: cur) cs

/-- `key.split(".").slice(-1)[0] ?? key`: the final dotted-path segment (JS
`split` never yields an empty array, so this is the text after the last
dot). -/
def leafOf (s : String) : String :=
  String.mk (lastSegAux [] s.toList)

/-- Value of a digit string read left to right. -/
def digitsVal (cs : List Char) : Nat :=
  cs.foldl (fun n c => n * 10 + (c.toNat - 48)) 0

/-- Decimal-string parsing used by the numeric coercion below (optional
sign, integer part, optional fractional part). -/
def parseDecimal (s : String) : Option ℚ :=
  let t := (jsTrim s).toList
  let p := match t with
    | '-' :: cs => (true, cs)
    | _ => (false, t)
  let mk : List Char → List Char → Option ℚ := fun ip fp =>
    if (ip ++ fp).isEmpty then none
    else if (ip ++ fp).all Char.isDigit then
      some ((if p.1 then -1 else 1) * (digitsVal (ip ++ fp) : ℚ) / ((10 : ℚ) ^ fp.length))
    else none
  let ip := p.2.takeWhile (fun c => c ≠ '.')
  match p.2.dropWhile (fun c => c ≠ '.') with
  | [] => mk ip []
  | _ :: fp => if fp.contains '.' then none else mk ip fp

/-- Modelled from the spec: `numericValue` of `@/lib/readings-utils` (not in
the provided sources) "coerces strings/numbers/booleans to a numeric value;
non-coercible values yield NaN (treated as 'not numeric' by all callers)".
`none` is "NaN / not numeric"; the argument is `none` when the raw value is
`undefined`. -/
def numericValue : Option JsonVal → Option ℚ
  | some (.num q) => some q
  | some (.bool b) => some (if b then 1 else 0)
  | some (.str s) => parseDecimal s
  | some .null => none
  | none => none

/-- `compareValues` from the source: applies an operator between the resolved
numeric value and the threshold. -/
def compareValues (value : ℚ) (operator : Operador) (threshold : ℚ) : Bool :=
  match operator with
  | .gt => decide (value > threshold)
  | .lt => decide (value < threshold)
  | .ge => decide (value ≥ threshold)
  | .le => decide (value ≤ threshold)
  | .eq => decide (value = threshold)
  | .ne => decide (value ≠ threshold)

/-- `resolveMetricValue` from the source: empty/absent key resolves to
nothing; an exact key match wins; otherwise the first mapping entry whose
final dotted-path segment normalizes like the configured key's final segment.
The flattened mapping is an association list in the object's natural
iteration order. -/
def resolveMetricValue (flat : List (String × JsonVal)) (key : Option String) :
    Option JsonVal :=
  match key with
  | none => none
  | some k =>
    if k = "" then none
    else
      match flat.find? (fun p => p.1 = k) with
      | some p => some p.2
      | none =>
        (flat.find? (fun p => normalizeKey (leafOf p.1) = normalizeKey (leafOf k))).map
          (·.2)

/-- Modelled from the spec: `new Date(ts).getHours()` — the local wall-clock
hour of an epoch-millisecond timestamp, for a fixed zone offset `tz` in
milliseconds. -/
def getHoursAt (tz ts : Int) : Int :=
  ((ts + tz).fdiv 3600000) % 24

/-- Modelled from the spec: `new Date(ts).getMinutes()` — the local wall-clock
minute, for a fixed zone offset `tz` in milliseconds. -/
def getMinutesAt (tz ts : Int) : Int :=
  ((ts + tz).fdiv 60000) % 60

/-- Environment-dependent pieces threaded through the evaluator: the local
zone offset, JS number-to-string rendering used in template literals, and
`formatClock` from `@/lib/readings-utils`. -/
structure JsEnv where
  tz : Int
  numToStr : ℚ → String
  fmtClock : Int → String

/-- `automation.name \x7c\x7c dflt`: JS falsy-string defaulting. -/
def nameOr (a : Automacao) (dflt : String) : String :=
  if a.name = "" then dflt else a.name

/-- `automation.metricKey \x7c\x7c "valor"`. -/
def metricKeyOr (a : Automacao) : String :=
  match a.metricKey with
  | some k => if k = "" then "valor" else k
  | none => "valor"

/-- The alert-event template literal from the source. -/
def alertText (env : JsEnv) (a : Automacao) (op : Operador) (thr v : ℚ) : String :=
  nameOr a "Automacao" ++ " disparada: " ++ metricKeyOr a ++ " " ++ opText op ++
    " " ++ env.numToStr thr ++ " (valor " ++ env.numToStr v ++ ")"

/-- The schedule-event template literal from the source. -/
def schedText (env : JsEnv) (a : Automacao) (ts : Int) : String :=
  nameOr a "Agendamento" ++ " executado as " ++ env.fmtClock ts

/-- One rule's evaluation against a processed reading (the body of the inner
`for` loop of `evaluate`): `some ev` when the rule fires and pushes `ev` (and
records `updates.set(id, ts)`), `none` when it is skipped or does not match. -/
def evalRule (env : JsEnv) (esp : String) (a : Automacao)
    (flat : List (String × JsonVal)) (ts : Int) : Option Evento :=
  match a.type with
  | .alert =>
    let rawValue := resolveMetricValue flat a.metricKey
    match numericValue rawValue, a.threshold, a.operador with
    | some num, some thr, some op =>
      if compareValues num op thr then
        some { ts := ts, espId := esp, name := nameOr a "Automacao",
               text := alertText env a op thr num }
      else none
    | _, _, _ => none
  | .schedule =>
    match a.schedule with
    | none => none
    | some s =>
      if getHoursAt env.tz ts = s.hh ∧ getMinutesAt env.tz ts = s.mm then
        let previous := a.lastTriggered.getD 0
        if previous = 0 ∨ ts - previous > 60000 then
          some { ts := ts, espId := esp, name := nameOr a "Agendamento",
                 text := schedText env a ts }
        else none
      else none

/-- JS `Map.set` on an association list with unique keys: replace the value
in place when the key exists, append otherwise (insertion order preserved,
as for a JS `Map`). -/
def mapSet {α : Type} : List (String × α) → String → α → List (String × α)
  | [], k, v => [(k, v)]
  | (k', v') :: rest, k, v =>
    if k' = k then (k, v) :: rest else (k', v') :: mapSet rest k v

/-- `Map.get` / association-list lookup (first binding wins). -/
def alookup {α : Type} (m : List (String × α)) (k : String) : Option α :=
  (m.find? (fun p => p.1 = k)).map (·.2)

/-- `automacoes.filter(a => a.enabled && a.espId === espId)` — the rules
evaluated against one device's reading. -/
def ativos (rules : List Automacao) (esp : String) : List Automacao :=
  rules.filter (fun a => a.enabled && a.espId == esp)

/-- Result of processing one target device inside an evaluation cycle:
the per-device last-seen timestamps, the batched `lastTriggered` updates and
the events generated so far. -/
structure StepResult where
  lastSeen : String → Int
  updates : List (String × Int)
  eventos : List Evento
deriving Inhabited

/-- One iteration of the per-device loop of `evaluate`: `reading = none`
models a failed fetch or absent payload (swallowed, device skipped); a
processed reading is its extracted timestamp together with its flattened
mapping.  The timestamp guard `!ts \x7c\x7c ts <= (lastSeenRef.current[espId]
\x7c\x7c 0)` skips the device entirely; otherwise the last-seen timestamp is
recorded, the device's enabled rules are evaluated, each firing rule appends
its event and sets `updates[id] = ts`. -/
def deviceStep (env : JsEnv) (rules : List Automacao) (acc : StepResult)
    (esp : String) (reading : Option (Int × List (String × JsonVal))) :
    StepResult :=
  match reading with
  | none => acc
  | some (ts, flat) =>
    if ts = 0 ∨ ts ≤ acc.lastSeen esp then acc
    else
      let act := ativos rules esp
      let fired := act.filter (fun a => (evalRule env esp a flat ts).isSome)
      { lastSeen := fun e => if e = esp then ts else acc.lastSeen e,
        updates := fired.foldl (fun m a => mapSet m a.id ts) acc.updates,
        eventos := acc.eventos ++ act.filterMap (fun a => evalRule env esp a flat ts) }

/-- End-of-cycle batch application of `lastTriggered` updates:
`current.map(a => updates.has(a.id) ? \x7b...a, lastTriggered: updates.get(a.id)\x7d : a)`. -/
def applyUpdates (updates : List (String × Int)) (rules : List Automacao) :
    List Automacao :=
  rules.map fun a =>
    match alookup updates a.id with
    | some t => { a with lastTriggered := some t }
    | none => a

/-- End-of-cycle event prepend:
`[...novosEventos.reverse(), ...current].slice(0, 200)`. -/
def pushEvents (novos current : List Evento) : List Evento :=
  (novos.reverse ++ current).take 200

/-- Iterated single-event emissions starting from an empty log (one event per
cycle), for the 250-emission bound of the spec. -/
def pushSeq (es : List Evento) : List Evento :=
  es.foldl (fun acc e => pushEvents [e] acc) []

/-- `writeLocal` from the source: an empty (or missing) collection removes
the storage key entirely (`none`); otherwise the serialized collection is
stored (`some`). -/
def writeLocal {α : Type} (value : List α) : Option (List α) :=
  if value.isEmpty then none else some value

/-- The `automacoes` persistence effect: runs on every rule-set mutation and
writes the full state. -/
def persistAutomacoes (rules : List Automacao) : Option (List Automacao) :=
  writeLocal rules

/-- The `eventos` persistence effect: runs on every event-log mutation and
writes the full state truncated to 200. -/
def persistEventos (eventos : List Evento) : Option (List Evento) :=
  writeLocal (eventos.take 200)

/-- The merge step of `loadRules`: a `Map` keyed by rule id, local rules
inserted first, backend rules second (overwriting duplicate ids), then
`Array.from(merged.values())`. -/
def mergeRules (localRules backendRules : List Automacao) : List Automacao :=
  ((localRules ++ backendRules).foldl (fun m r => mapSet m r.id r) []).map (·.2)

/-- The validation prefix of `salvar`: first failing check wins; `none` means
the form passes.  A JS `NaN` threshold is modelled as an absent threshold
(both fail `typeof threshold === "number" && !Number.isNaN(threshold)`). -/
def validationError (form : Automacao) : Option String :=
  if jsTrim form.name = "" then some "informe um nome"
  else if jsTrim form.espId = "" then some "selecione um dispositivo"
  else if form.type = .alert then
    if jsTrim (form.metricKey.getD "") = "" then some "informe a metrica"
    else if form.operador = none then some "selecione o operador"
    else if form.threshold = none then some "informe o valor de limiar"
    else none
  else none

/-- State-transition core of `salvar`: returns the new rule list and the
`erro` message.  `backendId = some cid` models a successful `POST /api/rules`
returning canonical id `cid`; `backendId = none` models a backend failure, in
which case the rule is kept locally (fresh `localId` on create) and a warning
is surfaced.  On validation failure nothing is mutated. -/
def salvar (form : Automacao) (editId : Option String)
    (backendId : Option String) (localId : String)
    (rules : List Automacao) : List Automacao × Option String :=
  match validationError form with
  | some e => (rules, some e)
  | none =>
    match backendId with
    | some cid =>
      let newRule := { form with id := cid }
      match editId with
      | some eid => (rules.map fun item => if item.id = eid then newRule else item, none)
      | none => (newRule :: rules, none)
    | none =>
      let warn := some "Regra salva localmente, mas falhou ao sincronizar com backend"
      match editId with
      | some eid => (rules.map fun item => if item.id = eid then form else item, warn)
      | none => ({ form with id := localId } :: rules, warn)

/-- State-transition core of `remover` (after the user confirms): the backend
`DELETE` outcome `backendOk` is logged and otherwise ignored; local removal
filters the rule out unconditionally. -/
def remover (backendOk : Bool) (target : Automacao) (rules : List Automacao) :
    List Automacao :=
  let _ := backendOk
  rules.filter (fun item => item.id ≠ target.id)

/-- Left-biased choice on options (mirrors the behaviour of overwriting map
insertion when read back). -/
def optOr {α : Type} : Option α → Option α → Option α
  | some x, _ => some x
  | none, y => y

/-- The last rule of `rs` whose id is `k`, if any (what an id-keyed map holds
after inserting all of `rs` in order). -/
def lastWins (rs : List Automacao) (k : String) : Option Automacao :=
  rs.foldl (fun acc r => if r.id = k then some r else acc) none

/-- Concrete environment (UTC zone, trivial renderers) for concrete-instance
theorems. -/
def wEnv : JsEnv := ⟨0, fun _ => "", fun _ => ""⟩

/-- Concrete alert rule for concrete-instance theorems. -/
def wAlert : Automacao :=
  { id := "a1", name := "alerta temp", description := none, enabled := true,
    type := .alert, espId := "esp-1", metricKey := some "temperatura",
    operador := some .gt, threshold := some 20, schedule := none,
    lastTriggered := none }

/-- Concrete schedule rule (18:00, never triggered) for concrete-instance
theorems. -/
def wSched : Automacao :=
  { id := "s1", name := "agenda", description := none, enabled := true,
    type := .schedule, espId := "esp-1", metricKey := none,
    operador := none, threshold := none, schedule := some ⟨18, 0⟩,
    lastTriggered := none }

/-- Concrete event for concrete-instance theorems. -/
def wEvento : Evento := ⟨1, "esp-1", "n", "t"⟩

theorem take_append_take {α : Type} (l m : List α) (n : Nat) :
    (l ++ m.take n).take n = (l ++ m).take n := by
  rw [List.take_append_eq_append_take, List.take_append_eq_append_take,
    List.take_take, Nat.min_eq_left (Nat.sub_le _ _)]

theorem pushSeq_foldl (es : List Evento) :
    ∀ acc : List Evento, acc.length ≤ 200 →
      es.foldl (fun acc e => pushEvents [e] acc) acc = (es.reverse ++ acc).take 200 := by
  induction es with
  | nil =>
    intro acc h
    simp [List.take_of_length_le h]
  | cons e es ih =>
    intro acc h
    rw [List.foldl_cons, ih _ (by simp [pushEvents])]
    show (es.reverse ++ ([e].reverse ++ acc).take 200).take 200 = _
    rw [take_append_take]
    simp

theorem alookup_cons {α : Type} (k0 : String) (v0 : α) (tl : List (String × α))
    (k' : String) :
    alookup ((k0, v0) :: tl) k' = if k0 = k' then some v0 else alookup tl k' := by
  unfold alookup
  by_cases h : k0 = k'
  · rw [List.find?_cons_of_pos _ (by simpa using h), if_pos h]
    rfl
  · rw [List.find?_cons_of_neg _ (by simpa using h), if_neg h]

theorem alookup_mapSet {α : Type} (m : List (String × α)) (k k' : String) (v : α) :
    alookup (mapSet m k v) k' = if k' = k then some v else alookup m k' := by
  induction m with
  | nil =>
    show alookup [(k, v)] k' = _
    rw [alookup_cons]
    by_cases h : k' = k
    · rw [if_pos h.symm, if_pos h]
    · rw [if_neg (fun hh : k = k' => h hh.symm), if_neg h]
  | cons hd tl ih =>
    obtain ⟨k0, v0⟩ := hd
    simp only [mapSet]
    by_cases h0 : k0 = k
    · rw [if_pos h0]
      subst h0
      rw [alookup_cons, alookup_cons]
      by_cases h : k0 = k'
      · rw [if_pos h, if_pos h.symm]
      · rw [if_neg h, if_neg (fun hh : k' = k0 => h hh.symm), if_neg h]
    · rw [if_neg h0, alookup_cons, ih, alookup_cons]
      by_cases h1 : k0 = k'
      · by_cases h2 : k' = k
        · exact absurd (h1.trans h2) h0
        · rw [if_pos h1, if_neg h2, if_pos h1]
      · by_cases h2 : k' = k
        · rw [if_neg h1, if_pos h2, if_pos h2]
        · rw [if_neg h1, if_neg h2, if_neg h2, if_neg h1]

theorem foldl_lastWins_init (rs : List Automacao) (k : String) :
    ∀ init, rs.foldl (fun acc r => if r.id = k then some r else acc) init
      = optOr (lastWins rs k) init := by
  induction rs with
  | nil => intro init; rfl
  | cons r rs ih =>
    intro init
    have hcons : lastWins (r :: rs) k
        = optOr (lastWins rs k) (if r.id = k then some r else none) := by
      have h0 : lastWins (r :: rs) k
          = rs.foldl (fun acc r => if r.id = k then some r else acc)
              (if r.id = k then some r else none) := rfl
      rw [h0, ih]
    rw [List.foldl_cons, ih (if r.id = k then some r else init), hcons]
    cases lastWins rs k with
    | some x => rfl
    | none =>
      by_cases hr : r.id = k
      · rw [if_pos hr, if_pos hr]
        rfl
      · rw [if_neg hr, if_neg hr]
        rfl

theorem lastWins_eq_none (rs : List Automacao) (k : String)
    (h : k ∉ rs.map (fun r => r.id)) : lastWins rs k = none := by
  induction rs with
  | nil => rfl
  | cons r rs ih =>
    simp only [List.map_cons, List.mem_cons] at h
    push_neg at h
    have h0 : lastWins (r :: rs) k
        = rs.foldl (fun acc r => if r.id = k then some r else acc)
            (if r.id = k then some r else none) := rfl
    rw [h0, foldl_lastWins_init, ih h.2, if_neg (fun he => h.1 he.symm)]
    rfl

theorem lastWins_of_mem (rs : List Automacao) (a : Automacao)
    (hnd : (rs.map (fun r => r.id)).Nodup) (ha : a ∈ rs) :
    lastWins rs a.id = some a := by
  induction rs with
  | nil => cases ha
  | cons b rs ih =>
    rw [List.map_cons, List.nodup_cons] at hnd
    have h0 : lastWins (b :: rs) a.id
        = rs.foldl (fun acc r => if r.id = a.id then some r else acc)
            (if b.id = a.id then some b else none) := rfl
    rcases List.mem_cons.mp ha with rfl | ha'
    · rw [h0, foldl_lastWins_init, lastWins_eq_none rs a.id hnd.1, if_pos rfl]
      rfl
    · rw [h0, foldl_lastWins_init, ih hnd.2 ha']
      rfl

theorem alookup_foldl_insert (rs : List Automacao) (k : String) :
    ∀ m : List (String × Automacao),
      alookup (rs.foldl (fun m r => mapSet m r.id r) m) k
        = optOr (lastWins rs k) (alookup m k) := by
  induction rs with
  | nil => intro m; rfl
  | cons r rs ih =>
    intro m
    have hcons : lastWins (r :: rs) k
        = optOr (lastWins rs k) (if r.id = k then some r else none) := by
      have h0 : lastWins (r :: rs) k
          = rs.foldl (fun acc r => if r.id = k then some r else acc)
              (if r.id = k then some r else none) := rfl
      rw [h0, foldl_lastWins_init]
    rw [List.foldl_cons, ih, alookup_mapSet, hcons]
    cases lastWins rs k with
    | some x => rfl
    | none =>
      by_cases hr : r.id = k
      · rw [if_pos hr.symm, if_pos hr]
        rfl
      · rw [if_neg (fun h : k = r.id => hr h.symm), if_neg hr]
        rfl


theorem mem_snd_of_alookup {α : Type} (m : List (String × α)) (k : String) (v : α)
    (h : alookup m k = some v) : v ∈ m.map (fun p => p.2) := by
  unfold alookup at h
  rcases Option.map_eq_some'.mp h with ⟨p, hp, hv⟩
  exact hv ▸ List.mem_map_of_mem _ (List.mem_of_find?_eq_some hp)

theorem filter_id_eq_nil (l : List Automacao) (k : String)
    (h : k ∉ l.map (fun r => r.id)) :
    l.filter (fun r => r.id == k) = [] := by
  rw [List.filter_eq_nil_iff]
  intro a ha
  simp only [beq_iff_eq]
  intro hk
  exact h (hk ▸ List.mem_map_of_mem _ ha)

theorem filter_id_singleton (l : List Automacao) (a : Automacao)
    (hnd : (l.map (fun r => r.id)).Nodup) (ha : a ∈ l) :
    l.filter (fun r => r.id == a.id) = [a] := by
  induction l with
  | nil => cases ha
  | cons b l ih =>
    rw [List.map_cons, List.nodup_cons] at hnd
    rcases List.mem_cons.mp ha with rfl | ha'
    · have h1 : l.filter (fun r => r.id == a.id) = [] := filter_id_eq_nil l a.id hnd.1
      simp [List.filter_cons, h1]
    · have hne : (b.id == a.id) = false := by
        rw [beq_eq_false_iff_ne]
        intro he
        exact hnd.1 (he ▸ List.mem_map_of_mem _ ha')
      simp [List.filter_cons, hne, ih hnd.2 ha']

theorem nodup_ids_filter (l : List Automacao) (p : Automacao → Bool)
    (h : (l.map (fun r => r.id)).Nodup) :
    ((l.filter p).map (fun r => r.id)).Nodup :=
  List.Nodup.sublist (List.Sublist.map _ (List.filter_sublist l)) h

theorem alookup_foldl_setTs (ts : Int) (l : List Automacao) (k : String) :
    ∀ m : List (String × Int),
      alookup (l.foldl (fun m a => mapSet m a.id ts) m) k
        = if k ∈ l.map (fun r => r.id) then some ts else alookup m k := by
  induction l with
  | nil => intro m; simp
  | cons a l ih =>
    intro m
    rw [List.foldl_cons, ih]
    by_cases hk : k ∈ l.map (fun r => r.id)
    · simp [hk]
    · by_cases hka : k = a.id
      · simp [hk, hka, alookup_mapSet]
      · simp [hk, hka, alookup_mapSet]

/-- C3: if a fetched reading's timestamp is not strictly greater than the
last timestamp previously seen for the device (or is zero), the evaluator
skips the device entirely this cycle — no rule is evaluated, no event is
emitted, no lastTriggered update is recorded, and the last-seen timestamp is
unchanged; when the reading is processed, the last-seen timestamp for that
device (and only that device) is set to the reading's timestamp, whether or
not any rule fires. -/
theorem c3_timestamp_guard
    (env : JsEnv) (rules : List Automacao) (acc : StepResult) (esp : String)
    (ts : Int) (flat : List (String × JsonVal)) :
    (ts ≤ acc.lastSeen esp → deviceStep env rules acc esp (some (ts, flat)) = acc) ∧
    (ts = 0 → deviceStep env rules acc esp (some (ts, flat)) = acc) ∧
    (ts ≠ 0 → acc.lastSeen esp < ts →
      (deviceStep env rules acc esp (some (ts, flat))).lastSeen esp = ts ∧
      ∀ e, e ≠ esp →
        (deviceStep env rules acc esp (some (ts, flat))).lastSeen e = acc.lastSeen e) := by
  refine ⟨?_, ?_, ?_⟩
  · intro h
    simp only [deviceStep]
    rw [if_pos (Or.inr h)]
  · intro h
    simp only [deviceStep]
    rw [if_pos (Or.inl h)]
  · intro h0 hlt
    simp only [deviceStep]
    rw [if_neg (by push_neg; exact ⟨h0, hlt⟩)]
    refine ⟨by simp, ?_⟩
    intro e he
    simp [he]

/-- C3 witness: a duplicate-poll timestamp (3 ≤ 5) is skipped whole, and a
fresh timestamp (3 > 0) updates the last-seen map. -/
theorem c3_timestamp_guard_witness :
    deviceStep wEnv [wAlert] ⟨fun _ => 5, [], []⟩ "esp-1" (some (3, [])) =
      ⟨fun _ => 5, [], []⟩ ∧
    (deviceStep wEnv [wAlert] ⟨fun _ => 0, [], []⟩ "esp-1" (some (3, []))).lastSeen
      "esp-1" = 3 :=
  ⟨(c3_timestamp_guard wEnv [wAlert] ⟨fun _ => 5, [], []⟩ "esp-1" 3 []).1 (by decide),
   ((c3_timestamp_guard wEnv [wAlert] ⟨fun _ => 0, [], []⟩ "esp-1" 3 []).2.2
      (by decide) (by decide)).1⟩

/-- C8: deleting a rule removes it from the local rule set unconditionally —
the result is the same filter of the rule list whatever the backend delete
outcome, the target id is gone, and every other rule survives. -/
theorem c8_remover_unconditional
    (backendOk : Bool) (a : Automacao) (rules : List Automacao) :
    remover backendOk a rules = rules.filter (fun r => r.id ≠ a.id) ∧
    remover backendOk a rules = remover (!backendOk) a rules ∧
    (∀ r ∈ remover backendOk a rules, r.id ≠ a.id) ∧
    (∀ r ∈ rules, r.id ≠ a.id → r ∈ remover backendOk a rules) := by
  refine ⟨rfl, rfl, ?_, ?_⟩
  · intro r hr
    have := List.of_mem_filter hr
    simpa using this
  · intro r hr h
    exact List.mem_filter.mpr ⟨hr, by simpa using h⟩

/-- C8 witness: removing the alert rule succeeds locally with a failing
backend (`backendOk = false`), and a rule with a different id survives. -/
theorem c8_remover_unconditional_witness :
    (∀ r ∈ remover false wAlert [wAlert, wSched], r.id ≠ wAlert.id) ∧
    wSched ∈ remover false wAlert [wAlert, wSched] :=
  ⟨(c8_remover_unconditional false wAlert [wAlert, wSched]).2.2.1,
   (c8_remover_unconditional false wAlert [wAlert, wSched]).2.2.2 wSched
     (by simp) (by decide)⟩

/-- C9: the persistence effects perform a full-state write on every mutation
of the rule set or event log; an empty collection removes the storage key
(`none`) rather than storing an empty collection, for both the automations
key and the events key; a non-empty collection is stored whole (events
truncated to 200). -/
theorem c9_persist_empty_removes_key :
    persistAutomacoes ([] : List Automacao) = none ∧
    persistEventos ([] : List Evento) = none ∧
    (∀ rules : List Automacao, rules ≠ [] → persistAutomacoes rules = some rules) ∧
    (∀ eventos : List Evento, eventos ≠ [] →
      persistEventos eventos = some (eventos.take 200)) := by
  refine ⟨rfl, rfl, ?_, ?_⟩
  · intro rules h
    cases rules with
    | nil => exact absurd rfl h
    | cons a l => rfl
  · intro eventos h
    cases eventos with
    | nil => exact absurd rfl h
    | cons a l => rfl

/-- C9 witness: a singleton rule set and event log are stored whole. -/
theorem c9_persist_empty_removes_key_witness :
    persistAutomacoes [wAlert] = some [wAlert] ∧
    persistEventos [wEvento] = some ([wEvento].take 200) :=
  ⟨c9_persist_empty_removes_key.2.2.1 [wAlert] (by simp),
   c9_persist_empty_removes_key.2.2.2 [wEvento] (by simp)⟩

/-- C10: applying a cycle's batch of lastTriggered updates preserves the
length and order of the rule list; a rule whose id is not in the update map
is left entirely unchanged; a rule whose id is in the map keeps every field
except lastTriggered, which becomes the mapped timestamp. -/
theorem c10_applyUpdates_frame (updates : List (String × Int)) (rules : List Automacao) :
    (applyUpdates updates rules).length = rules.length ∧
    ∀ (i : Nat) (hi : i < rules.length) (hi2 : i < (applyUpdates updates rules).length),
      ((applyUpdates updates rules).get ⟨i, hi2⟩).id = (rules.get ⟨i, hi⟩).id ∧
      ((applyUpdates updates rules).get ⟨i, hi2⟩).name = (rules.get ⟨i, hi⟩).name ∧
      ((applyUpdates updates rules).get ⟨i, hi2⟩).description
        = (rules.get ⟨i, hi⟩).description ∧
      ((applyUpdates updates rules).get ⟨i, hi2⟩).enabled = (rules.get ⟨i, hi⟩).enabled ∧
      ((applyUpdates updates rules).get ⟨i, hi2⟩).type = (rules.get ⟨i, hi⟩).type ∧
      ((applyUpdates updates rules).get ⟨i, hi2⟩).espId = (rules.get ⟨i, hi⟩).espId ∧
      ((applyUpdates updates rules).get ⟨i, hi2⟩).metricKey
        = (rules.get ⟨i, hi⟩).metricKey ∧
      ((applyUpdates updates rules).get ⟨i, hi2⟩).operador
        = (rules.get ⟨i, hi⟩).operador ∧
      ((applyUpdates updates rules).get ⟨i, hi2⟩).threshold
        = (rules.get ⟨i, hi⟩).threshold ∧
      ((applyUpdates updates rules).get ⟨i, hi2⟩).schedule
        = (rules.get ⟨i, hi⟩).schedule ∧
      (alookup updates (rules.get ⟨i, hi⟩).id = none →
        (applyUpdates updates rules).get ⟨i, hi2⟩ = rules.get ⟨i, hi⟩) ∧
      (∀ t, alookup updates (rules.get ⟨i, hi⟩).id = some t →
        ((applyUpdates updates rules).get ⟨i, hi2⟩).lastTriggered = some t) := by
  constructor
  · simp [applyUpdates]
  · intro i hi hi2
    have hg : (applyUpdates updates rules).get ⟨i, hi2⟩
        = (fun a => match alookup updates a.id with
            | some t => { a with lastTriggered := some t }
            | none => a) (rules.get ⟨i, hi⟩) := by
      simp [applyUpdates, List.get_eq_getElem, List.getElem_map]
    cases h : alookup updates (rules.get ⟨i, hi⟩).id with
    | none =>
      rw [hg]
      simp only [List.get_eq_getElem] at h
      simp [h]
    | some t =>
      rw [hg]
      simp only [List.get_eq_getElem] at h
      simp [h]

/-- C10 witness: a two-rule list with one updated id — the updated rule keeps
its fields with a new lastTriggered, the other is untouched. -/
theorem c10_applyUpdates_frame_witness :
    (applyUpdates [("a1", 7)] [wAlert, wSched]).length = 2 ∧
    ((applyUpdates [("a1", 7)] [wAlert, wSched]).get
      ⟨0, by simp [applyUpdates]⟩).lastTriggered = some 7 ∧
    (applyUpdates [("a1", 7)] [wAlert, wSched]).get ⟨1, by simp [applyUpdates]⟩
      = wSched := by
  refine ⟨(c10_applyUpdates_frame [("a1", 7)] [wAlert, wSched]).1, ?_, ?_⟩
  · exact ((c10_applyUpdates_frame [("a1", 7)] [wAlert, wSched]).2 0 (by simp)
      (by simp [applyUpdates])).2.2.2.2.2.2.2.2.2.2.2 7 (by decide)
  · exact ((c10_applyUpdates_frame [("a1", 7)] [wAlert, wSched]).2 1 (by simp)
      (by simp [applyUpdates])).2.2.2.2.2.2.2.2.2.2.1 (by decide)

/-- C5: the Event Log never exceeds 200 entries and is newest-first; one
cycle prepends the new batch reversed and caps at 200; after 250 sequential
single-trigger emissions exactly the oldest 50 are evicted (the log is the
reversal of the last 200 emissions); the persisted copy is truncated to 200
on every write regardless of in-memory size. -/
theorem c5_event_log_cap :
    (∀ novos current : List Evento,
      (pushEvents novos current).length ≤ 200 ∧
      pushEvents novos current = (novos.reverse ++ current).take 200) ∧
    (∀ es : List Evento, es.length = 250 →
      pushSeq es = (es.drop 50).reverse ∧ (pushSeq es).length = 200) ∧
    (∀ eventos stored : List Evento,
      persistEventos eventos = some stored → stored.length ≤ 200) := by
  refine ⟨?_, ?_, ?_⟩
  · intro novos current
    exact ⟨by simp [pushEvents], rfl⟩
  · intro es h
    have hps : pushSeq es = es.reverse.take 200 := by
      unfold pushSeq
      rw [pushSeq_foldl es [] (by simp)]
      simp
    have hdrop : es.reverse.take 200 = (es.drop 50).reverse := by
      rw [List.take_reverse, h]
    refine ⟨hps.trans hdrop, ?_⟩
    rw [hps]
    simp [h]
  · intro eventos stored h
    unfold persistEventos writeLocal at h
    by_cases he : (eventos.take 200).isEmpty
    · rw [if_pos he] at h
      cases h
    · rw [if_neg he] at h
      cases h
      simp

/-- C5 witness: 250 copies of a concrete event leave a 200-entry log equal to
the reversal of the last 200, and persisting a long log stores at most 200. -/
theorem c5_event_log_cap_witness :
    pushSeq (List.replicate 250 wEvento)
      = ((List.replicate 250 wEvento).drop 50).reverse ∧
    ∀ stored, persistEventos (List.replicate 250 wEvento) = some stored →
      stored.length ≤ 200 :=
  ⟨(c5_event_log_cap.2.1 (List.replicate 250 wEvento) (by rw [List.length_replicate])).1,
   fun stored h => c5_event_log_cap.2.2 (List.replicate 250 wEvento) stored h⟩

/-- C4: metric resolution returns the value bound to the configured key when
that key is present in the flattened mapping; otherwise it returns the value
of the first entry (in the mapping's iteration order) whose final dotted-path
segment normalizes like the configured key's final segment; it is undefined
when no entry matches or the key is empty or absent; in particular, for
flattened keys ("data.temperatura" : 21.5) and metricKey "temperatura" it
resolves to 21.5. -/
theorem c4_resolve_metric :
    (∀ (flat : List (String × JsonVal)) (k : String) (p : String × JsonVal),
      k ≠ "" → flat.find? (fun q => q.1 = k) = some p →
      resolveMetricValue flat (some k) = some p.2) ∧
    (∀ (flat : List (String × JsonVal)) (k : String),
      k ≠ "" → flat.find? (fun q => q.1 = k) = none →
      resolveMetricValue flat (some k)
        = (flat.find? (fun q =>
            normalizeKey (leafOf q.1) = normalizeKey (leafOf k))).map (·.2)) ∧
    (∀ flat : List (String × JsonVal), resolveMetricValue flat (some "") = none) ∧
    (∀ flat : List (String × JsonVal), resolveMetricValue flat none = none) ∧
    resolveMetricValue [("data.temperatura", JsonVal.num (43/2))] (some "temperatura")
      = some (JsonVal.num (43/2)) := by
  refine ⟨?_, ?_, ?_, ?_, ?_⟩
  · intro flat k p hk hf
    simp [resolveMetricValue, hk, hf]
  · intro flat k hk hf
    simp [resolveMetricValue, hk, hf]
  · intro flat
    rfl
  · intro flat
    rfl
  · rfl

/-- C4 witness: the exact-match branch at a concrete mapping, with a
non-empty key present in the mapping. -/
theorem c4_resolve_metric_witness :
    resolveMetricValue [("data.temperatura", JsonVal.num (43/2))]
      (some "data.temperatura") = some (JsonVal.num (43/2)) :=
  c4_resolve_metric.1 [("data.temperatura", JsonVal.num (43/2))]
    "data.temperatura" ("data.temperatura", JsonVal.num (43/2))
    (by decide) (by rfl)

/-- C7: saving validates required fields per type — name and device always,
and for alert rules additionally a non-empty metric key, an operator, and a
numeric (non-NaN) threshold; each failure produces its specific field-keyed
error message, and on any validation failure the rule set is not mutated; in
particular an alert rule with empty metricKey is rejected with
"informe a metrica" and no rule is added. -/
theorem c7_salvar_validation
    (form : Automacao) (editId backendId : Option String) (localId : String)
    (rules : List Automacao) :
    (∀ e, validationError form = some e →
      salvar form editId backendId localId rules = (rules, some e)) ∧
    (jsTrim form.name = "" → validationError form = some "informe um nome") ∧
    (jsTrim form.name ≠ "" → jsTrim form.espId = "" →
      validationError form = some "selecione um dispositivo") ∧
    (jsTrim form.name ≠ "" → jsTrim form.espId ≠ "" → form.type = .alert →
      jsTrim (form.metricKey.getD "") = "" →
      validationError form = some "informe a metrica" ∧
      (salvar form editId backendId localId rules).1 = rules) ∧
    (jsTrim form.name ≠ "" → jsTrim form.espId ≠ "" → form.type = .alert →
      jsTrim (form.metricKey.getD "") ≠ "" → form.operador = none →
      validationError form = some "selecione o operador") ∧
    (jsTrim form.name ≠ "" → jsTrim form.espId ≠ "" → form.type = .alert →
      jsTrim (form.metricKey.getD "") ≠ "" → form.operador ≠ none →
      form.threshold = none →
      validationError form = some "informe o valor de limiar") := by
  refine ⟨?_, ?_, ?_, ?_, ?_, ?_⟩
  · intro e he
    unfold salvar
    rw [he]
  · intro h
    unfold validationError
    rw [if_pos h]
  · intro h1 h2
    unfold validationError
    rw [if_neg h1, if_pos h2]
  · intro h1 h2 h3 h4
    have hv : validationError form = some "informe a metrica" := by
      unfold validationError
      rw [if_neg h1, if_neg h2, if_pos h3, if_pos h4]
    refine ⟨hv, ?_⟩
    unfold salvar
    rw [hv]
  · intro h1 h2 h3 h4 h5
    unfold validationError
    rw [if_neg h1, if_neg h2, if_pos h3, if_neg h4, if_pos h5]
  · intro h1 h2 h3 h4 h5 h6
    unfold validationError
    rw [if_neg h1, if_neg h2, if_pos h3, if_neg h4, if_neg h5, if_pos h6]

/-- C7 witness: a concrete alert form with empty metricKey is rejected with
the metric-specific error and the rule list is unchanged. -/
theorem c7_salvar_validation_witness :
    validationError { wAlert with metricKey := some "" }
      = some "informe a metrica" ∧
    (salvar { wAlert with metricKey := some "" } none none "local-1" [wSched]).1
      = [wSched] :=
  (c7_salvar_validation { wAlert with metricKey := some "" } none none
    "local-1" [wSched]).2.2.2.1 (by decide) (by decide) (by decide) (by decide)

/-- C6: the rule set is reconciled through a mapping keyed by rule id with
all local rules inserted first and all backend rules second: every id present
in both sources ends up with the backend copy, and every id present in only
one source is kept unchanged. -/
theorem c6_merge_backend_wins (localRules backendRules : List Automacao)
    (hl : (localRules.map (fun r => r.id)).Nodup)
    (hb : (backendRules.map (fun r => r.id)).Nodup) :
    (∀ r ∈ backendRules, r ∈ mergeRules localRules backendRules) ∧
    (∀ r ∈ localRules, r.id ∉ backendRules.map (fun r => r.id) →
      r ∈ mergeRules localRules backendRules) := by
  have hsplit : ∀ k, alookup ((localRules ++ backendRules).foldl
      (fun m r => mapSet m r.id r) ([] : List (String × Automacao))) k
      = optOr (lastWins backendRules k) (optOr (lastWins localRules k) none) := by
    intro k
    rw [List.foldl_append, alookup_foldl_insert, alookup_foldl_insert]
    rfl
  constructor
  · intro r hr
    have hlook : alookup ((localRules ++ backendRules).foldl
        (fun m r => mapSet m r.id r) ([] : List (String × Automacao))) r.id = some r := by
      rw [hsplit, lastWins_of_mem backendRules r hb hr]
      rfl
    unfold mergeRules
    exact mem_snd_of_alookup _ _ _ hlook
  · intro r hr hnot
    have hlook : alookup ((localRules ++ backendRules).foldl
        (fun m r => mapSet m r.id r) ([] : List (String × Automacao))) r.id = some r := by
      rw [hsplit, lastWins_eq_none backendRules r.id hnot,
        lastWins_of_mem localRules r hl hr]
      rfl
    unfold mergeRules
    exact mem_snd_of_alookup _ _ _ hlook

/-- C6 witness: an id present in both sources resolves to the backend copy,
and a local-only id survives the merge. -/
theorem c6_merge_backend_wins_witness :
    { wAlert with name := "backend" }
      ∈ mergeRules [wAlert, wSched] [{ wAlert with name := "backend" }] ∧
    wSched ∈ mergeRules [wAlert, wSched] [{ wAlert with name := "backend" }] :=
  ⟨(c6_merge_backend_wins [wAlert, wSched] [{ wAlert with name := "backend" }]
      (by decide) (by decide)).1 _ (by simp),
   (c6_merge_backend_wins [wAlert, wSched] [{ wAlert with name := "backend" }]
      (by decide) (by decide)).2 wSched (by simp) (by decide)⟩

theorem evalRule_alert_gt (env : JsEnv) (esp : String) (a : Automacao)
    (flat : List (String × JsonVal)) (ts : Int) (thr v : ℚ)
    (h3 : a.type = .alert) (h4 : a.operador = some .gt)
    (h5 : a.threshold = some thr)
    (h6 : numericValue (resolveMetricValue flat a.metricKey) = some v)
    (h7 : thr < v) :
    evalRule env esp a flat ts =
      some ⟨ts, esp, nameOr a "Automacao", alertText env a .gt thr v⟩ := by
  have hc : compareValues v Operador.gt thr = true := decide_eq_true h7
  unfold evalRule
  simp only [h3, h4, h5, h6, hc, if_true]

/-- C2: for an enabled alert rule with operator >, a defined threshold, and a
processed reading whose resolved metric value is numeric and strictly greater
than the threshold, the evaluation cycle emits exactly one Trigger Event for
that rule — with ts the reading's timestamp and text embedding rule name,
metric key, operator, threshold, and observed value — records
lastTriggered := ts for the rule in the batch update map, and the end-of-cycle
batch application yields the rule with lastTriggered set to the timestamp. -/
theorem c2_alert_gt_fires_once
    (env : JsEnv) (esp : String) (a : Automacao) (thr v : ℚ)
    (rules : List Automacao) (lastSeen0 : String → Int)
    (ts : Int) (flat : List (String × JsonVal))
    (hmem : a ∈ rules) (hnd : (rules.map (fun r => r.id)).Nodup)
    (hen : a.enabled = true) (hesp : a.espId = esp) (h3 : a.type = .alert)
    (h4 : a.operador = some .gt) (h5 : a.threshold = some thr)
    (h6 : numericValue (resolveMetricValue flat a.metricKey) = some v)
    (h7 : thr < v) (hts0 : ts ≠ 0) (hseen : lastSeen0 esp < ts) :
    ((ativos rules esp).filter (fun r => r.id == a.id)).filterMap
        (fun r => evalRule env esp r flat ts)
      = [⟨ts, esp, nameOr a "Automacao", alertText env a .gt thr v⟩] ∧
    alookup (deviceStep env rules ⟨lastSeen0, [], []⟩ esp (some (ts, flat))).updates
        a.id = some ts ∧
    (⟨ts, esp, nameOr a "Automacao", alertText env a .gt thr v⟩ : Evento)
      ∈ (deviceStep env rules ⟨lastSeen0, [], []⟩ esp (some (ts, flat))).eventos ∧
    { a with lastTriggered := some ts }
      ∈ applyUpdates
          (deviceStep env rules ⟨lastSeen0, [], []⟩ esp (some (ts, flat))).updates
          rules := by
  have hEval := evalRule_alert_gt env esp a flat ts thr v h3 h4 h5 h6 h7
  have hact : a ∈ ativos rules esp :=
    List.mem_filter.mpr ⟨hmem, by simp [hen, hesp]⟩
  have hndact : ((ativos rules esp).map (fun r => r.id)).Nodup :=
    nodup_ids_filter rules _ hnd
  have hsing : (ativos rules esp).filter (fun r => r.id == a.id) = [a] :=
    filter_id_singleton _ a hndact hact
  have hguard : ¬ (ts = 0 ∨ ts ≤ (⟨lastSeen0, [], []⟩ : StepResult).lastSeen esp) := by
    push_neg
    exact ⟨hts0, hseen⟩
  have hstep : deviceStep env rules ⟨lastSeen0, [], []⟩ esp (some (ts, flat))
      = { lastSeen := fun e => if e = esp then ts else lastSeen0 e,
          updates := ((ativos rules esp).filter
              (fun r => (evalRule env esp r flat ts).isSome)).foldl
            (fun m r => mapSet m r.id ts) [],
          eventos := [] ++ (ativos rules esp).filterMap
            (fun r => evalRule env esp r flat ts) } := by
    simp only [deviceStep]
    rw [if_neg hguard]
  have hfired : a ∈ (ativos rules esp).filter
      (fun r => (evalRule env esp r flat ts).isSome) :=
    List.mem_filter.mpr ⟨hact, by simp [hEval]⟩
  have hlook : alookup (deviceStep env rules ⟨lastSeen0, [], []⟩ esp
      (some (ts, flat))).updates a.id = some ts := by
    rw [hstep]
    show alookup (List.foldl _ _ _) a.id = some ts
    rw [alookup_foldl_setTs, if_pos (List.mem_map_of_mem _ hfired)]
  refine ⟨?_, hlook, ?_, ?_⟩
  · rw [hsing]
    simp [hEval]
  · rw [hstep]
    show _ ∈ [] ++ (ativos rules esp).filterMap (fun r => evalRule env esp r flat ts)
    rw [List.nil_append]
    exact List.mem_filterMap.mpr ⟨a, hact, hEval⟩
  · unfold applyUpdates
    refine List.mem_map.mpr ⟨a, hmem, ?_⟩
    rw [hlook]

/-- C2 witness: the concrete alert rule (temperatura > 20) against a reading
of 21.5 at timestamp 1000 records lastTriggered = 1000 in the update map. -/
theorem c2_alert_gt_fires_once_witness :
    alookup (deviceStep wEnv [wAlert] ⟨fun _ => 0, [], []⟩ "esp-1"
        (some (1000, [("data.temperatura", JsonVal.num (43/2))]))).updates
      wAlert.id = some 1000 :=
  (c2_alert_gt_fires_once wEnv "esp-1" wAlert 20 (43/2) [wAlert] (fun _ => 0)
    1000 [("data.temperatura", JsonVal.num (43/2))]
    (by simp) (by decide) rfl rfl rfl rfl rfl (by rfl) (by norm_num)
    (by decide) (by decide)).2.1

/-- C1 (amended): for an enabled schedule rule with a schedule, evaluation of
a processed reading fires iff the timestamp's local hour equals schedule.hh,
its local minute equals schedule.mm, and either there is no prior trigger
(absent or zero) or strictly more than 60,000 ms elapsed between the prior
lastTriggered and the reading timestamp; in particular a reading within
60,000 ms of the prior trigger (the exact 60,000 ms boundary included) does
not re-fire.  A reading 61+ seconds later at the same hh:mm, however, does
re-fire (see the counterexample). -/
theorem c1_schedule_fire_iff
    (env : JsEnv) (esp : String) (a : Automacao) (s : Sched)
    (flat : List (String × JsonVal)) (ts : Int)
    (htype : a.type = .schedule) (hs : a.schedule = some s) :
    ((evalRule env esp a flat ts).isSome = true ↔
      (getHoursAt env.tz ts = s.hh ∧ getMinutesAt env.tz ts = s.mm ∧
        (a.lastTriggered.getD 0 = 0 ∨ 60000 < ts - a.lastTriggered.getD 0))) ∧
    (∀ prev : Int, a.lastTriggered = some prev → prev ≠ 0 →
      ts - prev ≤ 60000 → evalRule env esp a flat ts = none) := by
  constructor
  · unfold evalRule
    simp only [htype, hs]
    by_cases h1 : getHoursAt env.tz ts = s.hh ∧ getMinutesAt env.tz ts = s.mm
    · rw [if_pos h1]
      by_cases h2 : a.lastTriggered.getD 0 = 0 ∨ ts - a.lastTriggered.getD 0 > 60000
      · rw [if_pos h2]
        simp [h1, h2]
      · rw [if_neg h2]
        simp [h1, h2]
    · rw [if_neg h1]
      simp only [Option.isSome_none, Bool.false_eq_true, false_iff]
      intro hc
      exact h1 ⟨hc.1, hc.2.1⟩
  · intro prev hp h0 hle
    unfold evalRule
    simp only [htype, hs, hp, Option.getD_some]
    by_cases h1 : getHoursAt env.tz ts = s.hh ∧ getMinutesAt env.tz ts = s.mm
    · rw [if_pos h1, if_neg (by push_neg; exact ⟨h0, hle⟩)]
    · rw [if_neg h1]

/-- C1 witness: the concrete schedule rule (18:00, never triggered) fires at
18:00:00 UTC of day zero. -/
theorem c1_schedule_fire_iff_witness :
    (evalRule wEnv "esp-1" wSched [] 64800000).isSome = true :=
  ((c1_schedule_fire_iff wEnv "esp-1" wSched ⟨18, 0⟩ [] 64800000 rfl rfl).1).mpr
    ⟨by decide, by decide, Or.inl (by decide)⟩

/-- C1 counterexample: the claim asserts that a reading timestamped 61+
seconds after the prior trigger at the same hh:mm does not re-fire; the code
does re-fire it.  Concretely, with schedule 18:00 and lastTriggered at
18:00:00 of day zero (64,800,000 ms), a reading at 18:00:00 of day one
(151,200,000 ms — the same local hour and minute, 86,400,000 ms ≥ 61 s later)
fires again. -/
theorem c1_refire_same_hhmm_counterexample :
    getHoursAt 0 64800000 = 18 ∧ getMinutesAt 0 64800000 = 0 ∧
    getHoursAt 0 151200000 = 18 ∧ getMinutesAt 0 151200000 = 0 ∧
    (61000 : Int) ≤ 151200000 - 64800000 ∧
    (evalRule wEnv "esp-1" { wSched with lastTriggered := some 64800000 }
        [] 151200000).isSome = true :=
  ⟨by decide, by decide, by decide, by decide, by decide, by decide⟩

end IotFront
